import Mathlib

/-!
Verification development for the DWUCK4 helper tools: the fixed-width
"card" encoder (`tools/generate_input.py`, `tools/generate_scan_7MeV.py`)
and the engine-output decoder (`tools/plot_scan_overlay.py`).

Numeric values are modelled as exact rationals; text is modelled as lists
of characters (`Str`).  Python's fixed-point formatting `{:+0w.df}` is
modelled by rounding half away from zero to `d` decimals and rendering
the scaled integer.
-/

set_option maxRecDepth 4000

namespace DWUCK

abbrev Str := List Char

/-! ### Decimal digit machinery -/

/-- Decimal digits of a natural number, most significant first.  The first
argument is fuel so that the recursion is structural and kernel-evaluable. -/

def natDigitsAux : ℕ → ℕ → List ℕ
  | 0, _ => []
  | fuel + 1, n => if n < 10 then [n] else natDigitsAux fuel (n / 10) ++ [n % 10]

/-- Decimal digits of `n`, most significant first; `0` renders as `[0]`. -/

def natDigits (n : ℕ) : List ℕ := natDigitsAux (n + 1) n

/-- Value of a digit list (most significant first). -/

def digitsVal (ds : List ℕ) : ℕ := ds.foldl (fun a d => a * 10 + d) 0

/-! ### Characters and digit strings -/

def digitChar (d : ℕ) : Char := Char.ofNat (48 + d)

def charVal (c : Char) : ℕ := c.toNat - 48

def isDig (c : Char) : Bool := decide (48 ≤ c.toNat ∧ c.toNat ≤ 57)

def digitChars (ds : List ℕ) : Str := ds.map digitChar

def natChars (n : ℕ) : Str := digitChars (natDigits n)

/-! ### Python-style fixed-point rendering -/

/-- Scaled magnitude: `round(|v| * 10^d)` with ties away from zero, that is
`⌊|v| * 10^d + 1/2⌋`.  This is the integer whose digits Python prints for
`|v|` at `d` decimal places.  Implemented by integer arithmetic on the
reduced numerator/denominator so that it evaluates cheaply. -/

def scaledN (v : ℚ) (d : ℕ) : ℕ := (2 * v.num.natAbs * 10 ^ d + v.den) / (2 * v.den)

/-- Fraction part padded with leading zeros to `d` digits. -/

def padDigits (d m : ℕ) : Str := List.replicate (d - (natDigits m).length) '0' ++ natChars m

/-- Digit/point rendering of a scaled magnitude `n` at `d` decimals
(no sign, exactly `d` fraction digits, no point when `d = 0`). -/

def fixChars (n d : ℕ) : Str :=
  if d = 0 then natChars n else natChars (n / 10 ^ d) ++ '.' :: padDigits d (n % 10 ^ d)

def signChar (v : ℚ) : Char := if v < 0 then '-' else '+'

/-- Python `f"{v:+.df}"`: explicit sign then fixed-point magnitude. -/

def sfix (d : ℕ) (v : ℚ) : Str := signChar v :: fixChars (scaledN v d) d

/-- Pad on the left with zeros to width `w` (Python zero-padding). -/

def zfill (w : ℕ) (l : Str) : Str := List.replicate (w - l.length) '0' ++ l

/-- Pad on the right with spaces to width `w` (Python `str.ljust`). -/

def ljust (w : ℕ) (l : Str) : Str := l ++ List.replicate (w - l.length) ' '

/-- Python `f"{v:+0w.df}"`: sign, then zero-padded fixed-point magnitude. -/

def pyPlusFix (w d : ℕ) (v : ℚ) : Str := signChar v :: zfill (w - 1) (fixChars (scaledN v d) d)

/-- Python `f"{v:0w.df}"` (no forced plus sign). -/

def pyFix (w d : ℕ) (v : ℚ) : Str :=
  if v < 0 then '-' :: zfill (w - 1) (fixChars (scaledN v d) d)
  else zfill w (fixChars (scaledN v d) d)

/-- Python `str(z)` for an integer. -/

def intChars (z : ℤ) : Str := if z < 0 then '-' :: natChars z.natAbs else natChars z.natAbs

/-- Python `f"{z:0wd}"` for an integer. -/

def intZfill (w : ℕ) (z : ℤ) : Str :=
  if z < 0 then '-' :: zfill (w - 1) (natChars z.natAbs) else zfill w (natChars z.natAbs)

/-! ### `fmt_f8` from `tools/generate_scan_7MeV.py`

The Python function takes a `decimal_places` argument, but the string built
from it is dead code: the returned value is always produced from the
hard-coded 3-decimal rendering, falling back to 2 decimals when too long,
left-justified to 8 and truncated to 8 characters. -/

def fmt_f8 (v : ℚ) : Str :=
  (if (sfix 3 v).length < 8 then ljust 8 (sfix 3 v)
   else if (sfix 3 v).length > 8 then ljust 8 (sfix 2 v)
   else sfix 3 v).take 8

/-! ### Python `float()` / `int()` parsing

Structural model of Python numeric-string parsing, adequate for the strings
this repository feeds it: optional surrounding whitespace, optional sign,
digits with at most one decimal point, optional `e`/`E` exponent.  Values are
exact rationals. -/

def lstrip (l : Str) : Str := l.dropWhile Char.isWhitespace

def rstrip (l : Str) : Str := (l.reverse.dropWhile Char.isWhitespace).reverse

def stripL (l : Str) : Str := rstrip (lstrip l)

/-- Split at the first character satisfying `p`; returns the prefix and,
when a split character was found, the remainder after it. -/

def splitAtFirst (p : Char → Bool) : Str → Str × Option Str
  | [] => ([], none)
  | c :: cs =>
    if p c then ([], some cs)
    else
      let r := splitAtFirst p cs
      (c :: r.1, r.2)

def takeSign : Str → ℤ × Str
  | '+' :: r => (1, r)
  | '-' :: r => (-1, r)
  | l => (1, l)

def allDig (l : Str) : Bool := l.all isDig

/-- Numeric value of a digit string. -/

def valD (l : Str) : ℕ := digitsVal (l.map charVal)

/-- Exact rational of an integer (avoiding the `IntCast` coercion in
computational paths). -/

def qOfInt : ℤ → ℚ
  | Int.ofNat n => (n : ℚ)
  | Int.negSucc n => Rat.neg (((n + 1) : ℕ) : ℚ)

/-- Mantissa: digits with an optional single decimal point, at least one
digit overall. -/

def parseMantissa (l : Str) : Option ℚ :=
  match splitAtFirst (fun c => c = '.') l with
  | (ip, none) => if ip ≠ [] ∧ allDig ip then some ((valD ip : ℚ)) else none
  | (ip, some fp) =>
    if (ip ≠ [] ∨ fp ≠ []) ∧ allDig ip ∧ allDig fp then
      some (mkRat ((valD ip * 10 ^ fp.length + valD fp : ℕ) : ℤ) (10 ^ fp.length))
    else none

def parseExpChars (l : Str) : Option ℤ :=
  let sr := takeSign l
  if sr.2 ≠ [] ∧ allDig sr.2 then some (sr.1 * (valD sr.2 : ℤ)) else none

/-- Multiply a parsed mantissa by `10^z`. -/

def applyExp (q : ℚ) : ℤ → ℚ
  | Int.ofNat n => Rat.mul q (mkRat ((10 ^ n : ℕ) : ℤ) 1)
  | Int.negSucc n => Rat.mul q (mkRat 1 (10 ^ (n + 1)))

def pyFloatCore (l : Str) : Option ℚ :=
  match splitAtFirst (fun c => c = 'e' ∨ c = 'E') (takeSign l).2 with
  | (m, none) => (parseMantissa m).map (fun q => Rat.mul (qOfInt (takeSign l).1) q)
  | (m, some ex) =>
    match parseMantissa m, parseExpChars ex with
    | some q, some z => some (Rat.mul (qOfInt (takeSign l).1) (applyExp q z))
    | _, _ => none

/-- Python `float(s)` (structural model). -/

def pyFloat (l : Str) : Option ℚ := pyFloatCore (stripL l)

/-- Python `int(s)` (structural model). -/

def pyInt (l : Str) : Option ℤ :=
  let sr := takeSign (stripL l)
  if sr.2 ≠ [] ∧ allDig sr.2 then some (sr.1 * (valD sr.2 : ℤ)) else none

/-! ### `tools/generate_input.py` — per-state card encoder

`StateRow` models one CSV row (Python `csv.DictReader` dict): each required
column is either present (`some` raw text) or missing.  Failed dict lookups
and failed `float()`/`int()` conversions raise, modelled by `Except`. -/

structure StateRow where
  Ex_keV : Option Str
  orbital : Option Str
  L : Option Str
  j_times_2 : Option Str
  nodes : Option Str
  Q_MeV : Option Str
  E_bind_MeV : Option Str
  E_proton_MeV : Option Str

def getF (f : Option Str) (name : String) : Except String Str :=
  match f with
  | some s => Except.ok s
  | none => Except.error ("KeyError: " ++ name)

def floatE (s : Str) : Except String ℚ :=
  match pyFloat s with
  | some q => Except.ok q
  | none => Except.error ("ValueError: could not convert string to float")

def intE (s : Str) : Except String ℤ :=
  match pyInt s with
  | some z => Except.ok z
  | none => Except.error ("ValueError: invalid literal for int")

def control_code_bound : Str := "1001000000200000".toList

def control_code_unbound : Str := "1011000030000000".toList

/-- Line 215 of `generate_input.py`: `is_bound = E_bind < 0`. -/

def is_bound (E_bind : ℚ) : Bool := E_bind < 0

/-- Line 218: select the control code by classification. -/

def control_code (E_bind : ℚ) : Str :=
  if is_bound E_bind then control_code_bound else control_code_unbound

/-- Line 219: select the title marker by classification. -/

def bound_marker (E_bind : ℚ) : Str :=
  if is_bound E_bind then ("bound ZR".toList) else ("unbound ZR".toList)

/-- Line 233: `lmax = 15 if not is_bound else 30`. -/

def lmax_of (E_bind : ℚ) : ℤ := if is_bound E_bind then 30 else 15

/-- Line 239: `rmax = -15.0 if not is_bound else 50.0`. -/

def rmax_of (E_bind : ℚ) : ℚ := if is_bound E_bind then 50.0 else -15.0

/-- Lines 176-206: deuteron imaginary surface depth from the Q-value,
`W_D = 42.340 + (-1.69) * (Q - 2.079)`. -/

def calculate_deuteron_W_surface (Q_value : ℚ) : ℚ :=
  42.340 + (-1.69) * (Q_value - 2.079)

/-- Result of `calculate_proton_optical_model` (lines 43-99): the four
energy-dependent depths and the three rendered optical-potential cards. -/

structure ProtonOM where
  card2 : Str
  card3 : Str
  card4 : Str
  V_real : ℚ
  W_surf : ℚ
  VSO_real : ℚ
  WSO_imag : ℚ

/-- Lines 43-99 of `generate_input.py`: linear energy dependence of the four
proton optical-model depths about the reference energy 9.438 MeV. -/

def calculate_proton_optical_model (E_proton : ℚ) : ProtonOM :=
  let dE := E_proton - 9.438
  let V_real := -56.249 + 0.405 * dE
  let W_surf := 34.836 + (-0.415) * dE
  let VSO_real := -0.786 + 0.081 * dE
  let WSO_imag := 0.156 + (-0.019) * dE
  { card2 := "+01.    ".toList ++ pyPlusFix 7 3 V_real ++ " +01.182 +00.672         ".toList ++
      pyPlusFix 7 3 VSO_real ++ " +01.182 +00.672 ".toList
    card3 := "+02.    +00.000 +00.000 +00.000         ".toList ++ pyPlusFix 7 3 W_surf ++
      " +01.290 +00.538 ".toList
    card4 := "-04.    -22.456 +00.991 +00.590         ".toList ++ pyPlusFix 7 3 WSO_imag ++
      " +00.991 +00.590 ".toList
    V_real := V_real
    W_surf := W_surf
    VSO_real := VSO_real
    WSO_imag := WSO_imag }

/-- Lines 274-277: the Q-value field uses `+{Q:06.3f}` when `Q >= 0` and
`{Q:+07.3f}` when `Q < 0` (one less digit of zero padding for non-negative
values, since the sign character takes one column). -/

def Q_formatted (Q : ℚ) : Str :=
  if 0 ≤ Q then '+' :: pyFix 6 3 Q else pyPlusFix 7 3 Q

/-- Lines 291-294: the binding-energy field, same convention as the Q-value. -/

def E_bind_formatted (E_bind : ℚ) : Str :=
  if 0 ≤ E_bind then '+' :: pyFix 6 3 E_bind else pyPlusFix 7 3 E_bind

/-- Lines 209-311 of `generate_input.py` (`format_state_block`): the 15 card
lines of one state, or the first raised conversion/lookup error. -/

def format_state_block (state : StateRow) : Except String (List Str) := do
  let ebS ← getF state.E_bind_MeV ("E_bind_MeV")
  let E_bind ← floatE ebS
  let control := control_code E_bind
  let marker := bound_marker E_bind
  let exS ← getF state.Ex_keV ("Ex_keV")
  let exI ← intE exS
  let orb ← getF state.orbital ("orbital")
  let title := ljust 80 (control ++ "    ".toList ++ "36S(d,p)@ 8MeV".toList ++ "    ".toList ++
    intChars exI ++ " keV  ".toList ++ orb ++ " ".toList ++ marker)
  let angles := "+90.    +00.    +01.                                                            ".toList
  let lS ← getF state.L ("L")
  let Lv ← intE lS
  let jS ← getF state.j_times_2 ("j_times_2")
  let j2 ← intE jS
  let qn := ljust 80 ('+' :: intZfill 2 (lmax_of E_bind) ++ "+01+".toList ++ intZfill 2 Lv ++
    "+".toList ++ intZfill 2 j2)
  let integration := ljust 80 ("+00.10  +00.    ".toList ++ pyPlusFix 4 0 (rmax_of E_bind) ++ ".".toList)
  let p1c1 := "+08.000  2.0     1.0    36.0    16.0    001.303                  2.0            ".toList
  let qS ← getF state.Q_MeV ("Q_MeV")
  let Q ← floatE qS
  let W_D := calculate_deuteron_W_surface Q
  let p1c2 := "+01.    -92.976 +01.150 +00.761         -01.602 +01.335 +00.525 ".toList
  let p1c3 := "+02.    +00.000 +00.000 +00.000         ".toList ++ pyPlusFix 7 3 W_D ++
    " +01.380 +00.736 ".toList
  let p1c4 := "-04.    -14.228 +00.972 +01.011         +00.000 +00.000 +00.000 ".toList
  let epS ← getF state.E_proton_MeV ("E_proton_MeV")
  let E_proton ← floatE epS
  let pom := calculate_proton_optical_model E_proton
  let p2c1 := Q_formatted Q ++ "  1.0     1.0    37.0    16.0    001.292                 +01.            ".toList
  let p3c1 := E_bind_formatted E_bind ++ "  1.0     0.0    36.0    16.0    +01.30                  +01.            ".toList
  let p3c2 := "-01.    -01.    +01.28  +00.65  24.0                                            ".toList
  let ndS ← getF state.nodes ("nodes")
  let nodes ← intE ndS
  let p3c3 := ljust 80 ('+' :: pyFix 2 0 (qOfInt nodes) ++ ".    +".toList ++ pyFix 2 0 (qOfInt Lv) ++
    ".    +".toList ++ pyFix 2 0 (qOfInt j2) ++ ".    +01.    ".toList ++ pyPlusFix 5 1 50.0 ++
    "   +00.    +00.00".toList)
  return [title, angles, qn, integration, p1c1, p1c2, p1c3, p1c4, p2c1,
    pom.card2, pom.card3, pom.card4, p3c1, p3c2, p3c3]

def terminator_line : Str := "9                   END OF DATA for DWUCK4".toList

/-- Loop body of `generate_input_file` (lines 340-350): the per-state `print`
reads `Ex_keV` and `orbital` from the dict, then the block is formatted and
written.  An uncaught error stops the loop; lines written so far stay in the
file and the terminator is only written after a full pass. -/

def generate_go : List StateRow → List Str → List Str × Except String Unit
  | [], acc => (acc ++ [terminator_line], Except.ok ())
  | s :: rest, acc =>
    match s.Ex_keV, s.orbital with
    | some _, some _ =>
      match format_state_block s with
      | Except.ok block => generate_go rest (acc ++ block)
      | Except.error e => (acc, Except.error e)
    | none, _ => (acc, Except.error ("KeyError: Ex_keV"))
    | _, none => (acc, Except.error ("KeyError: orbital"))

/-- Lines 329-353 of `generate_input.py` (`generate_input_file`): an empty
state list is rejected up front with nothing written; otherwise the states
are encoded in order. -/

def generate_input_file (states : List StateRow) : List Str × Except String Unit :=
  if states.isEmpty then ([], Except.error ("Error: No states found in CSV file"))
  else generate_go states []

/-! ### `tools/generate_scan_7MeV.py` — scan-variant classification

Lines 100-113 of `format_state`: the binding energy of the scanned state is
`BE_gs + ex_mev` and the bound/unbound switch picks control code, marker,
LMAX and RMAX. -/

def BE_gs : ℚ := -4.304

def Q_gs : ℚ := 2.079

def scan_is_bound (ex_mev : ℚ) : Bool := BE_gs + ex_mev < 0

def scan_rmax (ex_mev : ℚ) : ℚ := if scan_is_bound ex_mev then 50.0 else -15.0

def scan_control (ex_mev : ℚ) : Str :=
  if scan_is_bound ex_mev then control_code_bound else control_code_unbound

def scan_comment (ex_mev : ℚ) : Str :=
  if scan_is_bound ex_mev then ("bound ZR".toList) else ("unbound ZR".toList)

/-- Line 152 of `generate_scan_7MeV.py`: the integration card built from
`fmt_f8` fields `drf`, `rz`, `rmax`. -/

def scan_card4 (ex_mev : ℚ) : Str :=
  ljust 80 (fmt_f8 0.1 ++ fmt_f8 0.0 ++ fmt_f8 (scan_rmax ex_mev))

/-- Lines 161-170 of `generate_scan_7MeV.py`: the particle-2 Q-value card,
`fmt_f8(q_val)` followed by the fixed template fields. -/

def scan_q_card (q_val : ℚ) : Str :=
  fmt_f8 q_val ++
    ("  1.0     1.0    37.0    16.0    001.292                 +01.            ".toList)

/-- Lines 176-179 of `generate_scan_7MeV.py`: the particle-3 binding-energy
card, `fmt_f8(be_val)`, two spaces, then the fixed `p3_mass` template. -/

def scan_be_card (be_val : ℚ) : Str :=
  fmt_f8 be_val ++ ("  ".toList) ++
    ("1.0     0.0    36.0    16.0    +01.30                  +01.    ".toList)

def rowA : StateRow :=
  { Ex_keV := some ("0".toList)
    orbital := some ("0f7/2".toList)
    L := some ("3".toList)
    j_times_2 := some ("7".toList)
    nodes := some ("0".toList)
    Q_MeV := some ("2.079".toList)
    E_bind_MeV := some ("-4.304".toList)
    E_proton_MeV := some ("9.438".toList) }

/-! ### `tools/plot_scan_overlay.py` — engine-output decoder

A single pass over the report lines.  The collection is a Python dict keyed
by excitation energy (MeV): insertion-ordered, assignment to an existing key
replaces the value in place. -/

/-- Substring containment test. -/

def containsSub (hay needle : Str) : Bool :=
  match hay with
  | [] => needle.isEmpty
  | c :: cs => needle.isPrefixOf (c :: cs) || containsSub cs needle

def wordsOf (l : Str) : List Str := (l.splitOnP Char.isWhitespace).filter (fun w => w ≠ [])

/-- Python `line.split(sep)[0]`: the segment before the first occurrence of
`sep` (the whole line when `sep` does not occur). -/

def firstSegBefore (sep : Str) : Str → Str
  | [] => []
  | c :: cs => if sep.isPrefixOf (c :: cs) then [] else c :: firstSegBefore sep cs

/-- Key comparison on normalized rationals by components (equivalent to
equality; avoids the derived `DecidableEq` instance in evaluation). -/

def qBeq (a b : ℚ) : Bool := a.num == b.num && a.den == b.den

/-- Python dict assignment `d[k] = v`: replace in place when the key exists,
append otherwise. -/

def dictInsert (k : ℚ) (v : List ℚ × List ℚ) (d : List (ℚ × (List ℚ × List ℚ))) :
    List (ℚ × (List ℚ × List ℚ)) :=
  if d.any (fun p => qBeq p.1 k) then d.map (fun p => if qBeq p.1 k then (k, v) else p)
  else d ++ [(k, v)]

structure ScanState where
  states : List (ℚ × (List ℚ × List ℚ))
  current_ex : Option ℚ
  angles : List ℚ
  xsecs : List ℚ
  capture : Bool

/-- Lines 22-23 of `plot_scan_overlay.py`: a state header contains both the
reaction label and the energy unit token. -/

def isTitleLine (l : Str) : Bool :=
  containsSub l ("36S(d,p)".toList) && containsSub l ("keV".toList)

/-- Lines 31-37: `int(line.split("keV")[0].strip().split()[-1]) / 1000.0`,
with any failure swallowed by the bare `except`. -/

def title_ex_key (line : Str) : Option ℚ :=
  let parts := wordsOf (firstSegBefore ("keV".toList) line)
  match parts.getLast? with
  | none => none
  | some w => (pyInt w).map (fun z => qOfInt z / 1000)

/-- Lines 24-28 (and 69-70): save the pending series under the current key
and reset the row accumulators; a no-op without an open nonempty series. -/

def flushSeries (st : ScanState) : ScanState :=
  match st.current_ex with
  | some k =>
    if st.angles.isEmpty then st
    else
      { st with
        states := dictInsert k (st.angles, st.xsecs) st.states
        angles := []
        xsecs := [] }
  | none => st

/-- Lines 49-66: a data row has at least two whitespace tokens whose first
two parse as floats. -/

def parse_data_row (l : Str) : Option (ℚ × ℚ) :=
  let parts := wordsOf l
  if parts.length ≥ 2 then
    match pyFloat (parts.headD []), pyFloat ((parts.drop 1).headD []) with
    | some ang, some xs => some (ang, xs)
    | _, _ => none
  else none

/-- The state-header check at the top of the loop (lines 22-38): flush any
pending series, try to update the current key, stop capturing. -/
def title_step (st : ScanState) (line : Str) : ScanState :=
  if isTitleLine line then
    { (match title_ex_key line with
       | some k => { flushSeries st with current_ex := some k }
       | none => flushSeries st) with capture := false }
  else st

/-- One iteration of the scanning loop (lines 20-66), with the Python
`continue`-separated checks as an else-if chain. -/
def step_line (st : ScanState) (line : Str) : ScanState :=
  if containsSub line ("Tot-sig".toList) then { title_step st line with capture := false }
  else if containsSub line ("Theta".toList) && containsSub line ("Inelsig".toList) then
    { title_step st line with capture := true }
  else if (title_step st line).capture then
    match parse_data_row line with
    | some ax =>
      { title_step st line with
        angles := (title_step st line).angles ++ [ax.1]
        xsecs := (title_step st line).xsecs ++ [ax.2] }
    | none => title_step st line
  else title_step st line

def init_scan : ScanState := ⟨[], none, [], [], false⟩

/-- Lines 68-70: the pending series (if any) is flushed at end-of-input. -/

def finalizeScan (st : ScanState) : List (ℚ × (List ℚ × List ℚ)) :=
  (flushSeries st).states

/-- Lines 6-72 of `plot_scan_overlay.py` (`parse_dwuck_output`). -/

def parse_dwuck_output (lines : List Str) : List (ℚ × (List ℚ × List ℚ)) :=
  finalizeScan (lines.foldl step_line init_scan)

/-! ### `tools/plot_dwuck.py` — series-list decoder (`parse_output`)

An index-driven scan over the report lines: every table found is appended
to a plain Python list (nothing is keyed, nothing is replaced).  The
Python `while` loops are modelled with explicit fuel; each outer iteration
strictly increases the line index, so `lines.length + 1` steps suffice. -/

/-- Result of matching `data_re` against one line: no structural match, a
structural match whose second group fails `float()` (the inner loop's
`except: break`), or both parsed values. -/
inductive RowMatch where
  | no : RowMatch
  | bad : RowMatch
  | val (theta y : ℚ) : RowMatch

/-- The character class `[0-9Ee.+-]` of the second group of `data_re`. -/

def dataClass (c : Char) : Bool :=
  isDig c || c == 'E' || c == 'e' || c == '.' || c == '+' || c == '-'

/-- Line 25, `data_re.match`: the anchored pattern
`\s*([+-]?[0-9]+(\.[0-9]*)?)\s+([+-]?[0-9Ee.+-]+)` followed by `float()`
on both groups.  Group 1 is a decimal numeral, so its `float()` never
fails and its value is computed directly; group 2 is a maximal nonempty
run of numeric-looking characters, whose `float()` may fail. -/

def rowMatch (l : Str) : RowMatch :=
  let sr := takeSign (l.dropWhile Char.isWhitespace)
  let ds := sr.2.takeWhile isDig
  if ds.isEmpty then RowMatch.no
  else
    let fr :=
      match sr.2.dropWhile isDig with
      | '.' :: rr => (rr.takeWhile isDig, rr.dropWhile isDig)
      | rr => (([] : Str), rr)
    if (fr.2.takeWhile Char.isWhitespace).isEmpty then RowMatch.no
    else
      let g2 := (fr.2.dropWhile Char.isWhitespace).takeWhile dataClass
      if g2.isEmpty then RowMatch.no
      else
        match pyFloat g2 with
        | some y =>
          RowMatch.val
            (Rat.mul (qOfInt sr.1)
              (mkRat ((valD ds * 10 ^ fr.1.length + valD fr.1 : ℕ) : ℤ)
                (10 ^ fr.1.length)))
            y
        | none => RowMatch.bad

/-- Lines 42-53, the inner row loop: consume consecutive matching rows
from index `j`, stopping at the first structural mismatch or `float()`
failure; returns the theta column, the y column and the stop index. -/

def collectRows (lines : List Str) : ℕ → ℕ → List ℚ × List ℚ × ℕ
  | 0, j => ([], [], j)
  | fuel + 1, j =>
    if j < lines.length then
      match rowMatch (lines.getD j []) with
      | RowMatch.val t y =>
        let r := collectRows lines fuel (j + 1)
        (t :: r.1, y :: r.2.1, r.2.2)
      | _ => ([], [], j)
    else ([], [], j)

/-- Lines 38-56, the outer scan after a header: skip lines until the first
structural row match, then hand over to the inner loop (a first row whose
`float()` fails leaves the row lists empty, matching the Python
`except: break` out of both loops). -/

def findTable (lines : List Str) : ℕ → ℕ → List ℚ × List ℚ × ℕ
  | 0, j => ([], [], j)
  | fuel + 1, j =>
    if j < lines.length then
      match rowMatch (lines.getD j []) with
      | RowMatch.no => findTable lines fuel (j + 1)
      | _ => collectRows lines (lines.length + 1) j
    else ([], [], j)

/-- Lines 59-66: the title is the first line of the window `[i-6, i)` that
strips to a nonempty string not starting with `'0'`; when none qualifies,
the fallback `Series starting line {i+1}`. -/

def titleFor (lines : List Str) (i : ℕ) : Str :=
  match (List.range' (i - 6) (min 6 i)).find?
      (fun k =>
        !(stripL (lines.getD k [])).isEmpty &&
        !((stripL (lines.getD k [])).headD ' ' == '0')) with
  | some k => stripL (lines.getD k [])
  | none => ("Series starting line ".toList) ++ natChars (i + 1)

/-- Lines 29-70, the outer `while i < len(lines)` loop: on a header line
(case-insensitive substring `Theta`, line 24) collect the following table;
when rows were found, append the titled series and jump to the stop index,
otherwise advance by one line. -/

def parse_output_go (lines : List Str) :
    ℕ → ℕ → List (Str × (List ℚ × List ℚ)) → List (Str × (List ℚ × List ℚ))
  | 0, _, acc => acc
  | fuel + 1, i, acc =>
    if i < lines.length then
      if containsSub ((lines.getD i []).map Char.toLower) ("theta".toList) then
        let r := findTable lines (lines.length + 1) (i + 1)
        if r.1.isEmpty then parse_output_go lines fuel (i + 1) acc
        else parse_output_go lines fuel r.2.2 (acc ++ [(titleFor lines i, (r.1, r.2.1))])
      else parse_output_go lines fuel (i + 1) acc
    else acc

/-- Lines 18-71 of `plot_dwuck.py` (`parse_output`). -/

def parse_output (lines : List Str) : List (Str × (List ℚ × List ℚ)) :=
  parse_output_go lines (lines.length + 1) 0 []

/-! ### Spec-side formatter (refinement reference for §4.1) -/

inductive SpecRender where
  | ok (s : Str)
  | okWarnTruncated (s : Str)
  | fieldOverflowError

/-- Modelled from the spec: §4.1 `render(value, width, decimals)`.  If the
signed fixed-decimal rendering fits, pad right with spaces; if too long,
reduce precision by one decimal digit rather than truncate integer digits;
if still too long, truncate to `width` flagged as a warning — but fail with
`FieldOverflowError` when even the zero-decimal rendering cannot fit. -/

def render_spec (v : ℚ) (width decimals : ℕ) : SpecRender :=
  let full := sfix decimals v
  if full.length ≤ width then SpecRender.ok (ljust width full)
  else
    let reduced := sfix (decimals - 1) v
    if reduced.length ≤ width then SpecRender.ok (ljust width reduced)
    else if width < (sfix 0 v).length then SpecRender.fieldOverflowError
    else SpecRender.okWarnTruncated (reduced.take width)

/-- Whether an encoding computation succeeded. -/
def okB : Except String (List Str) → Bool
  | Except.ok _ => true
  | Except.error _ => false

def ok_block_aux : Except String (List Str) → List Str
  | Except.ok ls => ls
  | Except.error _ => []

/-- The block of a state, empty when encoding fails. -/
def ok_block (r : StateRow) : List Str := ok_block_aux (format_state_block r)

/-- The `i`-th card line of a successfully encoded state block. -/
def block_line (r : StateRow) (i : ℕ) : Str := (ok_block r).getD i []

/-- StateInput with binding energy exactly 0.0 (boundary case of §8). -/
def rowZero : StateRow :=
  { Ex_keV := some ("4304".toList)
    orbital := some ("0f7/2".toList)
    L := some ("3".toList)
    j_times_2 := some ("7".toList)
    nodes := some ("0".toList)
    Q_MeV := some ("-2.225".toList)
    E_bind_MeV := some ("0.0".toList)
    E_proton_MeV := some ("9.438".toList) }

/-- Scenario B: StateInput with binding energy +0.5 (unbound). -/
def rowB : StateRow :=
  { Ex_keV := some ("4804".toList)
    orbital := some ("0f7/2".toList)
    L := some ("3".toList)
    j_times_2 := some ("7".toList)
    nodes := some ("0".toList)
    Q_MeV := some ("-2.725".toList)
    E_bind_MeV := some ("0.5".toList)
    E_proton_MeV := some ("9.438".toList) }

/-- A state row whose binding-energy field is not numeric. -/
def rowBad : StateRow :=
  { Ex_keV := some ("500".toList)
    orbital := some ("0f7/2".toList)
    L := some ("3".toList)
    j_times_2 := some ("7".toList)
    nodes := some ("0".toList)
    Q_MeV := some ("1.579".toList)
    E_bind_MeV := some ("abc".toList)
    E_proton_MeV := some ("9.438".toList) }

def scenC : List Str :=
  [ "1001000000200000    36S(d,p)@ 16MeV    0 keV  0f7/2 bound ZR".toList,
    " Theta    Inelsig".toList,
    " 10.00    1.234E-01".toList,
    " 20.00    2.000E-01".toList,
    " 30.00    3.000E-01".toList,
    "1001000000200000    36S(d,p)@ 16MeV    1000 keV  0f7/2 bound ZR".toList,
    " Theta    Inelsig".toList,
    " 10.00    4.000E-01".toList,
    " 20.00    5.000E-01".toList,
    " 30.00    6.000E-01".toList ]

/-- Two series with the same label (0 keV): later rows supersede earlier. -/
def dupInput : List Str :=
  [ "1001000000200000    36S(d,p)@ 16MeV    0 keV  0f7/2 bound ZR".toList,
    " Theta    Inelsig".toList,
    " 10.00    1.000E-01".toList,
    " 20.00    2.000E-01".toList,
    "1001000000200000    36S(d,p)@ 16MeV    0 keV  0f7/2 bound ZR".toList,
    " Theta    Inelsig".toList,
    " 30.00    3.000E-01".toList,
    " 40.00    4.000E-01".toList ]

/-- A title line whose keV numeral is not an integer literal. -/
def c10BadTitle : Str :=
  "1001000000200000    36S(d,p)@ 16MeV    abc keV  0f7/2 bound ZR".toList

/-- A well-formed series at 1000 keV followed by a series whose title has an
unparseable keV numeral. -/
def c10Input : List Str :=
  [ "1001000000200000    36S(d,p)@ 16MeV    1000 keV  0f7/2 bound ZR".toList,
    " Theta    Inelsig".toList,
    " 10.00    1.000E-01".toList,
    " 20.00    2.000E-01".toList,
    c10BadTitle,
    " Theta    Inelsig".toList,
    " 30.00    3.000E-01".toList,
    " 40.00    4.000E-01".toList ]

/-- A report in the `plot_dwuck.py` layout with two tables whose backward
title search lands on the same label line. -/
def dupTitledReport : List Str :=
  [ "36S(d,p) 0 keV run".toList,
    " Theta    Inelsig".toList,
    " 10.00    1.000E-01".toList,
    " 20.00    2.000E-01".toList,
    "36S(d,p) 0 keV run".toList,
    " Theta    Inelsig".toList,
    " 30.00    3.000E-01".toList,
    " 40.00    4.000E-01".toList ]

/-! ### Digit and character lemmas -/

lemma digitsVal_append_singleton (ds : List ℕ) (d : ℕ) :
    digitsVal (ds ++ [d]) = digitsVal ds * 10 + d := by
  simp [digitsVal, List.foldl_append]

lemma natDigitsAux_succ (f n : ℕ) :
    natDigitsAux (f + 1) n = if n < 10 then [n] else natDigitsAux f (n / 10) ++ [n % 10] := rfl

lemma lt_ten_pow (n : ℕ) : n < 10 ^ n := by
  have h2 : n < 2 ^ n := Nat.lt_two_pow n
  have h10 : (2 : ℕ) ^ n ≤ 10 ^ n := Nat.pow_le_pow_left (by norm_num) n
  omega

lemma lt_ten_pow_succ (n : ℕ) : n < 10 ^ (n + 1) := by
  have h1 := lt_ten_pow n
  have h2 : (10 : ℕ) ^ n ≤ 10 ^ (n + 1) := Nat.pow_le_pow_right (by norm_num) (by omega)
  omega

lemma div10_lt_pow {n f : ℕ} (h : n < 10 ^ (f + 1)) : n / 10 < 10 ^ f := by
  have h' : n < 10 ^ f * 10 := by rw [← pow_succ]; exact h
  omega

lemma digitsVal_natDigitsAux (fuel : ℕ) :
    ∀ n : ℕ, n < 10 ^ fuel → digitsVal (natDigitsAux fuel n) = n := by
  induction fuel with
  | zero =>
    intro n hn
    simp only [pow_zero, Nat.lt_one_iff] at hn
    subst hn
    simp [natDigitsAux, digitsVal]
  | succ f ih =>
    intro n hn
    rw [natDigitsAux_succ]
    by_cases h10 : n < 10
    · simp [h10, digitsVal]
    · rw [if_neg h10, digitsVal_append_singleton, ih _ (div10_lt_pow hn)]
      omega

lemma digitsVal_natDigits (n : ℕ) : digitsVal (natDigits n) = n :=
  digitsVal_natDigitsAux (n + 1) n (lt_ten_pow_succ n)

lemma natDigitsAux_lt_ten (fuel : ℕ) :
    ∀ n : ℕ, ∀ d ∈ natDigitsAux fuel n, d < 10 := by
  induction fuel with
  | zero => intro n d hd; simp [natDigitsAux] at hd
  | succ f ih =>
    intro n d hd
    rw [natDigitsAux_succ] at hd
    by_cases h10 : n < 10
    · rw [if_pos h10] at hd; simp at hd; omega
    · rw [if_neg h10] at hd
      simp only [List.mem_append, List.mem_singleton] at hd
      rcases hd with hd | hd
      · exact ih _ _ hd
      · subst hd; exact Nat.mod_lt _ (by norm_num)

lemma natDigits_lt_ten (n : ℕ) : ∀ d ∈ natDigits n, d < 10 :=
  natDigitsAux_lt_ten (n + 1) n

lemma natDigits_ne_nil (n : ℕ) : natDigits n ≠ [] := by
  unfold natDigits
  rw [natDigitsAux_succ]
  by_cases h10 : n < 10 <;> simp [h10]

lemma natDigitsAux_length_le (fuel : ℕ) :
    ∀ n : ℕ, n < 10 ^ fuel → (natDigitsAux fuel n).length ≤ fuel := by
  induction fuel with
  | zero => intro n hn; simp [natDigitsAux]
  | succ f ih =>
    intro n hn
    rw [natDigitsAux_succ]
    by_cases h10 : n < 10
    · simp [h10]
    · rw [if_neg h10]
      simp only [List.length_append, List.length_singleton]
      have := ih _ (div10_lt_pow hn)
      omega

lemma natDigitsAux_fuel_eq (f : ℕ) :
    ∀ g n : ℕ, n < 10 ^ (f + 1) → n < 10 ^ (g + 1) →
      natDigitsAux (f + 1) n = natDigitsAux (g + 1) n := by
  induction f with
  | zero =>
    intro g n hf _
    rw [pow_one] at hf
    rw [natDigitsAux_succ, natDigitsAux_succ, if_pos hf, if_pos hf]
  | succ f ih =>
    intro g n hf hg
    by_cases h10 : n < 10
    · cases g with
      | zero =>
        rw [natDigitsAux_succ (f + 1) n, natDigitsAux_succ 0 n, if_pos h10, if_pos h10]
      | succ g =>
        rw [natDigitsAux_succ (f + 1) n, natDigitsAux_succ (g + 1) n, if_pos h10, if_pos h10]
    · cases g with
      | zero =>
        exfalso
        rw [pow_one] at hg
        omega
      | succ g =>
        rw [natDigitsAux_succ (f + 1) n, natDigitsAux_succ (g + 1) n,
          if_neg h10, if_neg h10, ih g (n / 10) (div10_lt_pow hf) (div10_lt_pow hg)]

lemma natDigits_length_le {n k : ℕ} (hn : n < 10 ^ k) (hk : 0 < k) :
    (natDigits n).length ≤ k := by
  obtain ⟨k', rfl⟩ : ∃ k', k = k' + 1 := ⟨k - 1, by omega⟩
  unfold natDigits
  rw [natDigitsAux_fuel_eq n k' n (lt_ten_pow_succ n) hn]
  exact natDigitsAux_length_le (k' + 1) n hn

lemma char_props_of_lt_ten {d : ℕ} (hd : d < 10) :
    charVal (digitChar d) = d ∧ isDig (digitChar d) = true ∧
    (digitChar d).isWhitespace = false ∧ digitChar d ≠ '.' ∧
    digitChar d ≠ 'e' ∧ digitChar d ≠ 'E' := by
  interval_cases d <;> exact ⟨by decide, by decide, by decide, by decide, by decide, by decide⟩

lemma natChars_ne_nil (n : ℕ) : natChars n ≠ [] := by
  unfold natChars digitChars
  simp [natDigits_ne_nil]

lemma natChars_length (n : ℕ) : (natChars n).length = (natDigits n).length := by
  simp [natChars, digitChars]

/-! ### Formatter shape lemmas -/

lemma length_ljust (w : ℕ) (l : Str) : (ljust w l).length = max w l.length := by
  simp [ljust]
  omega

lemma length_zfill (w : ℕ) (l : Str) : (zfill w l).length = max w l.length := by
  simp [zfill]
  omega

lemma padDigits_length {d m : ℕ} (h : m < 10 ^ d) (hd : 0 < d) :
    (padDigits d m).length = d := by
  have hlen := natDigits_length_le h hd
  simp [padDigits, natChars, digitChars]
  omega

lemma fixChars_length (n d : ℕ) (hd : 0 < d) :
    (fixChars n d).length = (natDigits (n / 10 ^ d)).length + 1 + d := by
  have hpow : 0 < 10 ^ d := Nat.pos_pow_of_pos d (by norm_num)
  have hmod : n % 10 ^ d < 10 ^ d := Nat.mod_lt _ hpow
  rw [fixChars, if_neg (by omega)]
  simp [natChars_length, padDigits_length hmod hd]
  omega

lemma sfix_length (v : ℚ) (d : ℕ) (hd : 0 < d) :
    (sfix d v).length = (natDigits (scaledN v d / 10 ^ d)).length + 2 + d := by
  rw [sfix]
  simp [fixChars_length _ d hd]
  omega

/-! ### The scaled-rounding bridge -/

lemma abs_rat_eq (v : ℚ) : |v| = (v.num.natAbs : ℚ) / (v.den : ℚ) := by
  have h := Rat.num_div_den v
  calc |v| = |(v.num : ℚ) / (v.den : ℚ)| := by rw [h]
    _ = |(v.num : ℚ)| / |(v.den : ℚ)| := abs_div _ _
    _ = (v.num.natAbs : ℚ) / (v.den : ℚ) := by
        rw [abs_of_nonneg (by positivity : (0:ℚ) ≤ (v.den : ℚ))]
        congr 1
        rw [← Int.cast_abs, Int.abs_eq_natAbs, Int.cast_natCast]

lemma floor_natCast_div (N D : ℕ) (hD : 0 < D) :
    ⌊(N : ℚ) / (D : ℚ)⌋ = ((N / D : ℕ) : ℤ) := by
  have hD' : (0:ℚ) < (D : ℚ) := by exact_mod_cast hD
  rw [Int.floor_eq_iff]
  constructor
  · rw [le_div_iff₀ hD']
    exact_mod_cast Nat.div_mul_le_self N D
  · rw [div_lt_iff₀ hD']
    have h1 : (N : ℚ) = (D : ℚ) * ((N / D : ℕ) : ℚ) + ((N % D : ℕ) : ℚ) := by
      exact_mod_cast (Nat.div_add_mod N D).symm
    have h2 : ((N % D : ℕ) : ℚ) < (D : ℚ) := by
      exact_mod_cast Nat.mod_lt N hD
    rw [Int.cast_natCast]
    nlinarith [h1, h2]

lemma scaledN_eq_floor (v : ℚ) (d : ℕ) :
    ((scaledN v d : ℕ) : ℤ) = ⌊|v| * 10 ^ d + 1/2⌋ := by
  have hden : 0 < v.den := v.pos
  have hdq : ((v.den : ℚ)) ≠ 0 := by positivity
  have hx : |v| * 10 ^ d + 1/2
      = ((2 * v.num.natAbs * 10 ^ d + v.den : ℕ) : ℚ) / ((2 * v.den : ℕ) : ℚ) := by
    rw [abs_rat_eq]
    push_cast
    field_simp
    ring
  rw [scaledN, hx, floor_natCast_div _ _ (by omega)]

lemma scaledN_le {v : ℚ} {d M : ℕ} (h : |v| * 10 ^ d + 1/2 < (M : ℚ) + 1) :
    scaledN v d ≤ M := by
  have hb := scaledN_eq_floor v d
  have hfl : ⌊|v| * 10 ^ d + 1/2⌋ < (M : ℤ) + 1 := Int.floor_lt.mpr (by push_cast; linarith)
  omega

lemma scaledN_close (v : ℚ) (d : ℕ) :
    |((scaledN v d : ℕ) : ℚ) - |v| * 10 ^ d| ≤ 1/2 := by
  have hb := scaledN_eq_floor v d
  have h1 : ((⌊|v| * 10 ^ d + 1/2⌋ : ℤ) : ℚ) ≤ |v| * 10 ^ d + 1/2 := Int.floor_le _
  have h2 : |v| * 10 ^ d + 1/2 - 1 < ((⌊|v| * 10 ^ d + 1/2⌋ : ℤ) : ℚ) := Int.sub_one_lt_floor _
  have hcast : ((scaledN v d : ℕ) : ℚ) = ((⌊|v| * 10 ^ d + 1/2⌋ : ℤ) : ℚ) := by
    exact_mod_cast hb
  rw [hcast, abs_le]
  constructor <;> linarith

/-! ### Character cleanliness of rendered numerals -/

lemma natChars_props (n : ℕ) :
    ∀ c ∈ natChars n, isDig c = true ∧ c.isWhitespace = false ∧
      c ≠ '.' ∧ c ≠ 'e' ∧ c ≠ 'E' := by
  intro c hc
  simp only [natChars, digitChars, List.mem_map] at hc
  obtain ⟨d, hd, rfl⟩ := hc
  have h10 := natDigits_lt_ten n d hd
  have h := char_props_of_lt_ten h10
  exact ⟨h.2.1, h.2.2.1, h.2.2.2.1, h.2.2.2.2.1, h.2.2.2.2.2⟩

lemma padDigits_props (d m : ℕ) :
    ∀ c ∈ padDigits d m, isDig c = true ∧ c.isWhitespace = false ∧
      c ≠ '.' ∧ c ≠ 'e' ∧ c ≠ 'E' := by
  intro c hc
  simp only [padDigits, List.mem_append, List.mem_replicate] at hc
  rcases hc with ⟨_, rfl⟩ | hc
  · exact ⟨by decide, by decide, by decide, by decide, by decide⟩
  · exact natChars_props m c hc

/-! ### `splitAtFirst` and `stripL` on clean strings -/

lemma splitAtFirst_none {p : Char → Bool} :
    ∀ {l : Str}, (∀ c ∈ l, p c = false) → splitAtFirst p l = (l, none) := by
  intro l
  induction l with
  | nil => intro _; rfl
  | cons c cs ih =>
    intro h
    have hc := h c (by simp)
    simp [splitAtFirst, hc, ih (fun x hx => h x (by simp [hx]))]

lemma splitAtFirst_app {p : Char → Bool} {l1 l2 : Str} {c : Char}
    (h1 : ∀ x ∈ l1, p x = false) (hc : p c = true) :
    splitAtFirst p (l1 ++ c :: l2) = (l1, some l2) := by
  induction l1 with
  | nil => simp [splitAtFirst, hc]
  | cons a t ih =>
    have ha := h1 a (by simp)
    simp [splitAtFirst, ha, ih (fun x hx => h1 x (by simp [hx]))]

lemma dropWhile_replicate_space (k : ℕ) (l : Str) :
    (List.replicate k ' ' ++ l).dropWhile Char.isWhitespace = l.dropWhile Char.isWhitespace := by
  induction k with
  | zero => simp
  | succ k ih =>
    rw [List.replicate_succ, List.cons_append, List.dropWhile_cons_of_pos (by decide)]
    exact ih

lemma exists_last_props (pre l : Str) (hne : l ≠ []) (P : Char → Prop)
    (hP : ∀ c ∈ l, P c) : ∃ t c, pre ++ l = t ++ [c] ∧ P c := by
  refine ⟨pre ++ l.dropLast, l.getLast hne, ?_, hP _ (List.getLast_mem hne)⟩
  rw [List.append_assoc, List.dropLast_append_getLast hne]

lemma stripL_clean {l : Str} {t : Str} {cl : Char} (hl : l = cl :: t)
    (hcl : cl.isWhitespace = false) {t2 : Str} {c2 : Char} (hl2 : l = t2 ++ [c2])
    (hc2 : c2.isWhitespace = false) (k : ℕ) :
    stripL (l ++ List.replicate k ' ') = l := by
  rw [stripL, lstrip, hl, List.cons_append,
    List.dropWhile_cons_of_neg (by simp [hcl]), ← List.cons_append, ← hl]
  rw [rstrip, List.reverse_append, List.reverse_replicate, dropWhile_replicate_space]
  rw [hl2, List.reverse_append]
  simp only [List.reverse_singleton, List.singleton_append]
  rw [List.dropWhile_cons_of_neg (by simp [hc2])]
  simp

/-! ### Digit-string values -/

lemma valD_natChars (n : ℕ) : valD (natChars n) = n := by
  rw [valD, natChars, digitChars, List.map_map]
  have hcongr : ∀ d ∈ natDigits n, (charVal ∘ digitChar) d = d := fun d hd =>
    (char_props_of_lt_ten (natDigits_lt_ten n d hd)).1
  rw [List.map_congr_left hcongr]
  simpa using digitsVal_natDigits n

lemma digitsVal_replicate_zero (k : ℕ) (ds : List ℕ) :
    digitsVal (List.replicate k 0 ++ ds) = digitsVal ds := by
  induction k with
  | zero => simp
  | succ k ih =>
    rw [List.replicate_succ, List.cons_append]
    simpa [digitsVal] using ih

lemma valD_padDigits (d m : ℕ) : valD (padDigits d m) = m := by
  rw [valD, padDigits, List.map_append, List.map_replicate]
  have hz : charVal '0' = 0 := by decide
  rw [hz, digitsVal_replicate_zero]
  exact valD_natChars m

lemma allDig_natChars (n : ℕ) : allDig (natChars n) = true :=
  List.all_eq_true.mpr fun c hc => (natChars_props n c hc).1

lemma allDig_padDigits (d m : ℕ) : allDig (padDigits d m) = true :=
  List.all_eq_true.mpr fun c hc => (padDigits_props d m c hc).1

/-! ### Parsing a rendered fixed-point field recovers the scaled value -/

lemma takeSign_signChar (v : ℚ) (body : Str) :
    takeSign (signChar v :: body) = (if v < 0 then -1 else 1, body) := by
  rw [signChar]
  by_cases h : v < 0
  · rw [if_pos h, if_pos h]
    simp [takeSign]
  · rw [if_neg h, if_neg h]
    simp [takeSign]

lemma parseMantissa_render (ipn d m : ℕ) (hd : 0 < d) (hm : m < 10 ^ d) :
    parseMantissa (natChars ipn ++ '.' :: padDigits d m) =
      some (mkRat ((ipn * 10 ^ d + m : ℕ) : ℤ) (10 ^ d)) := by
  have hsplit : splitAtFirst (fun c => c = '.') (natChars ipn ++ '.' :: padDigits d m)
      = (natChars ipn, some (padDigits d m)) := by
    apply splitAtFirst_app
    · intro x hx
      have hp := natChars_props ipn x hx
      simp [hp.2.2.1]
    · decide
  rw [parseMantissa, hsplit]
  dsimp only
  rw [if_pos]
  · rw [valD_natChars, valD_padDigits, padDigits_length hm hd]
  · exact ⟨Or.inl (natChars_ne_nil ipn), allDig_natChars ipn, allDig_padDigits d m⟩

lemma pyFloat_sfix_pad (v : ℚ) (d : ℕ) (hd : 0 < d) (k : ℕ) :
    pyFloat (sfix d v ++ List.replicate k ' ') =
      some (Rat.mul (qOfInt (if v < 0 then -1 else 1))
        (mkRat ((scaledN v d / 10 ^ d * 10 ^ d + scaledN v d % 10 ^ d : ℕ) : ℤ)
          (10 ^ d))) := by
  have hpow : 0 < 10 ^ d := Nat.pos_pow_of_pos d (by norm_num)
  have hmod : scaledN v d % 10 ^ d < 10 ^ d := Nat.mod_lt _ hpow
  have hbody : fixChars (scaledN v d) d
      = natChars (scaledN v d / 10 ^ d) ++ '.' :: padDigits d (scaledN v d % 10 ^ d) := by
    rw [fixChars, if_neg (by omega)]
  have hsign_ws : (signChar v).isWhitespace = false := by
    rw [signChar]; by_cases h : v < 0 <;> simp [h]
  have hsfix_eq : sfix d v =
      (signChar v :: natChars (scaledN v d / 10 ^ d) ++
        '.' :: List.replicate (d - (natDigits (scaledN v d % 10 ^ d)).length) '0') ++
      natChars (scaledN v d % 10 ^ d) := by
    rw [sfix, hbody, padDigits]
    simp
  obtain ⟨t2, c2, hl2, hc2⟩ := exists_last_props
    (signChar v :: natChars (scaledN v d / 10 ^ d) ++
      '.' :: List.replicate (d - (natDigits (scaledN v d % 10 ^ d)).length) '0')
    (natChars (scaledN v d % 10 ^ d)) (natChars_ne_nil _) _
    (natChars_props (scaledN v d % 10 ^ d))
  have hstrip : stripL (sfix d v ++ List.replicate k ' ') = sfix d v :=
    stripL_clean rfl hsign_ws (hsfix_eq.trans hl2) hc2.2.1 k
  rw [pyFloat, hstrip]
  have hts : takeSign (sfix d v) = (if v < 0 then -1 else 1, fixChars (scaledN v d) d) := by
    rw [sfix]
    exact takeSign_signChar v _
  have hnoexp : splitAtFirst (fun c => c = 'e' ∨ c = 'E') (fixChars (scaledN v d) d)
      = (fixChars (scaledN v d) d, none) := by
    apply splitAtFirst_none
    intro c hc
    rw [hbody] at hc
    simp only [List.mem_append, List.mem_cons] at hc
    rcases hc with hc | hc | hc
    · have hp := natChars_props _ c hc
      simp [hp.2.2.2.1, hp.2.2.2.2]
    · subst hc
      decide
    · have hp := padDigits_props _ _ c hc
      simp [hp.2.2.2.1, hp.2.2.2.2]
  rw [pyFloatCore, hts]
  dsimp only
  rw [hnoexp]
  dsimp only
  rw [hbody, parseMantissa_render _ d _ hd hmod]
  rfl

/-! ### Shape of `fmt_f8` output -/

lemma fmt_f8_length (v : ℚ) : (fmt_f8 v).length = 8 := by
  rw [fmt_f8]
  split_ifs with h1 h2
  · rw [List.length_take, length_ljust]
    omega
  · rw [List.length_take, length_ljust]
    omega
  · rw [List.length_take]
    omega

lemma fmt_f8_head (v : ℚ) : (fmt_f8 v).head? = some (signChar v) := by
  rw [fmt_f8]
  split_ifs
  · show ((ljust 8 (signChar v :: fixChars (scaledN v 3) 3)).take 8).head? = _
    rw [ljust, List.cons_append]
    rfl
  · show ((ljust 8 (signChar v :: fixChars (scaledN v 2) 2)).take 8).head? = _
    rw [ljust, List.cons_append]
    rfl
  · rfl

lemma fmt_f8_eq_pad (v : ℚ) (h8 : (sfix 3 v).length ≤ 8) :
    fmt_f8 v = sfix 3 v ++ List.replicate (8 - (sfix 3 v).length) ' ' := by
  rw [fmt_f8]
  by_cases hlt : (sfix 3 v).length < 8
  · rw [if_pos hlt, ljust]
    apply List.take_of_length_le
    simp
    omega
  · have heq : (sfix 3 v).length = 8 := by omega
    rw [if_neg hlt, if_neg (by omega), List.take_of_length_le (by omega), heq]
    simp

lemma scaledN_neg (v : ℚ) (d : ℕ) : scaledN (-v) d = scaledN v d := by
  rw [scaledN, scaledN, Rat.neg_num, Int.natAbs_neg, Rat.neg_den]

lemma tail_take_eight (c c' : Char) (F3 F2 : Str) :
    ((if (c :: F3).length < 8 then ljust 8 (c :: F3)
      else if (c :: F3).length > 8 then ljust 8 (c :: F2)
      else c :: F3).take 8).tail =
    ((if (c' :: F3).length < 8 then ljust 8 (c' :: F3)
      else if (c' :: F3).length > 8 then ljust 8 (c' :: F2)
      else c' :: F3).take 8).tail := by
  simp only [List.length_cons]
  split_ifs
  · rw [ljust, ljust]
    simp only [List.length_cons, List.cons_append]
    rfl
  · rw [ljust, ljust]
    simp only [List.length_cons, List.cons_append]
    rfl
  · rfl

/-- The characters after the sign are the same for `v` and `-v`: the
`fmt_f8` layout carries no sign-dependent padding. -/
lemma fmt_f8_tail_neg (v : ℚ) : (fmt_f8 (-v)).tail = (fmt_f8 v).tail := by
  have h3 := scaledN_neg v 3
  have h2 := scaledN_neg v 2
  rw [fmt_f8, fmt_f8, sfix, sfix, sfix, sfix, h3, h2]
  exact tail_take_eight (signChar (-v)) (signChar v) _ _

lemma take_eight_fmt (v : ℚ) (rest : Str) : (fmt_f8 v ++ rest).take 8 = fmt_f8 v :=
  List.take_left' (fmt_f8_length v)

/-! ### Rational-value helpers for the parsed result -/

lemma rat_mul_eq (a b : ℚ) : Rat.mul a b = a * b := rfl

lemma rat_neg_eq (a : ℚ) : Rat.neg a = -a := rfl

lemma qOfInt_one : qOfInt 1 = 1 := by
  show qOfInt (Int.ofNat 1) = 1
  simp [qOfInt]

lemma qOfInt_negOne : qOfInt (-1) = -1 := by
  show qOfInt (Int.negSucc 0) = -1
  simp [qOfInt, rat_neg_eq]

lemma mkRat_eq_div' (n : ℤ) (d : ℕ) : mkRat n d = (n : ℚ) / ((d : ℕ) : ℚ) := by
  rw [Rat.mkRat_eq_divInt, Rat.divInt_eq_div]
  norm_num

/-- Round trip through the formatter: for values small enough that the
3-decimal rendering fits in 8 characters, `fmt_f8` output parses back as a
float within half a unit in the last (third) decimal place. -/
lemma roundtrip_close (v : ℚ) (h : |v| ≤ 999999/1000) :
    ∃ w : ℚ, pyFloat (fmt_f8 v) = some w ∧ |w - v| ≤ 1/1000 := by
  have hle : scaledN v 3 ≤ 999999 := by
    apply scaledN_le
    have habs : |v| * 1000 ≤ 999999 := by
      have h1 : |v| * 1000 ≤ (999999/1000) * 1000 :=
        mul_le_mul_of_nonneg_right h (by norm_num)
      linarith [h1]
    have : (10:ℚ) ^ 3 = 1000 := by norm_num
    rw [this]
    push_cast
    linarith
  have hip : scaledN v 3 / 10 ^ 3 < 10 ^ 3 := by omega
  have hlen : (sfix 3 v).length ≤ 8 := by
    rw [sfix_length v 3 (by norm_num)]
    have := natDigits_length_le hip (by norm_num)
    omega
  rw [fmt_f8_eq_pad v hlen, pyFloat_sfix_pad v 3 (by norm_num)]
  refine ⟨_, rfl, ?_⟩
  rw [show scaledN v 3 / 10 ^ 3 * 10 ^ 3 + scaledN v 3 % 10 ^ 3 = scaledN v 3 by omega]
  rw [rat_mul_eq, mkRat_eq_div']
  have hclose := scaledN_close v 3
  rw [abs_le] at hclose
  have hten : ((10:ℕ) ^ 3 : ℚ) = 1000 := by norm_num
  by_cases hv : v < 0
  · rw [if_pos hv, qOfInt_negOne]
    have habs : |v| = -v := abs_of_neg hv
    rw [habs] at hclose
    rw [abs_le]
    push_cast at hclose ⊢
    norm_num at hclose ⊢
    constructor <;> linarith
  · rw [if_neg hv, qOfInt_one]
    have habs : |v| = v := abs_of_nonneg (by linarith [not_lt.mp hv])
    rw [habs] at hclose
    rw [abs_le]
    push_cast at hclose ⊢
    norm_num at hclose ⊢
    constructor <;> linarith

/-! ### Width of the sign-dependent Q-value / binding-energy field -/

lemma Q_formatted_length (v : ℚ) (h : |v| ≤ 99999/1000) : (Q_formatted v).length = 7 := by
  have hle : scaledN v 3 ≤ 99999 := by
    apply scaledN_le
    have h1 : |v| * 1000 ≤ 99999 := by
      have h2 := mul_le_mul_of_nonneg_right h (by norm_num : (0:ℚ) ≤ 1000)
      linarith [h2]
    have hten : ((10:ℚ):ℚ) ^ 3 = 1000 := by norm_num
    rw [hten]
    push_cast
    linarith
  have hip : scaledN v 3 / 10 ^ 3 < 10 ^ 2 := by omega
  have hlen2 := natDigits_length_le hip (by norm_num)
  have hfix : (fixChars (scaledN v 3) 3).length ≤ 6 := by
    rw [fixChars_length _ 3 (by norm_num)]
    omega
  rw [Q_formatted]
  split_ifs with h0
  · simp only [pyFix, if_neg (not_lt.mpr h0), List.length_cons, length_zfill]
    omega
  · simp only [pyPlusFix, List.length_cons, length_zfill]
    omega

/-! ### The decoded collection is a dict: keys never repeat -/

lemma qBeq_iff (a b : ℚ) : qBeq a b = true ↔ a = b := by
  rw [qBeq]
  simp only [Bool.and_eq_true, beq_iff_eq]
  constructor
  · rintro ⟨h1, h2⟩
    exact Rat.ext h1 h2
  · rintro rfl
    exact ⟨rfl, rfl⟩

lemma dictInsert_keys (k : ℚ) (v : List ℚ × List ℚ) (d : List (ℚ × (List ℚ × List ℚ))) :
    (dictInsert k v d).map Prod.fst =
      if d.any (fun p => qBeq p.1 k) then d.map Prod.fst else d.map Prod.fst ++ [k] := by
  rw [dictInsert]
  split_ifs with h
  · rw [List.map_map]
    apply List.map_congr_left
    intro p _
    by_cases hpk : qBeq p.1 k = true
    · simp only [Function.comp_apply, if_pos hpk]
      exact ((qBeq_iff _ _).mp hpk).symm
    · simp only [Function.comp_apply, if_neg hpk]
  · simp

lemma dictInsert_nodup {k : ℚ} {v : List ℚ × List ℚ} {d : List (ℚ × (List ℚ × List ℚ))}
    (h : (d.map Prod.fst).Nodup) : ((dictInsert k v d).map Prod.fst).Nodup := by
  rw [dictInsert_keys]
  split_ifs with hany
  · exact h
  · have hk : k ∉ d.map Prod.fst := by
      intro hmem
      rw [List.mem_map] at hmem
      obtain ⟨p, hp, hpk⟩ := hmem
      exact hany (List.any_eq_true.mpr ⟨p, hp, (qBeq_iff _ _).mpr hpk⟩)
    rw [List.nodup_append]
    exact ⟨h, List.nodup_singleton k, by simp [List.disjoint_singleton, hk]⟩

lemma flushSeries_states_cases (st : ScanState) :
    (flushSeries st).states = st.states ∨
      ∃ k, (flushSeries st).states = dictInsert k (st.angles, st.xsecs) st.states := by
  cases hce : st.current_ex with
  | none => left; simp [flushSeries, hce]
  | some k =>
    by_cases he : st.angles.isEmpty = true
    · left; simp [flushSeries, hce, he]
    · right; exact ⟨k, by simp [flushSeries, hce, he]⟩

lemma title_step_states (st : ScanState) (line : Str) :
    (title_step st line).states = st.states ∨
      ∃ k, (title_step st line).states = dictInsert k (st.angles, st.xsecs) st.states := by
  rw [title_step]
  split_ifs with h
  · cases htk : title_ex_key line with
    | none => simpa using flushSeries_states_cases st
    | some k2 => simpa using flushSeries_states_cases st
  · left; rfl

lemma step_line_states (st : ScanState) (line : Str) :
    (step_line st line).states = (title_step st line).states := by
  rw [step_line]
  split_ifs
  · rfl
  · rfl
  · cases hr : parse_data_row line with
    | some ax => rfl
    | none => rfl
  · rfl

lemma step_line_nodup {st : ScanState} (line : Str)
    (h : (st.states.map Prod.fst).Nodup) :
    ((step_line st line).states.map Prod.fst).Nodup := by
  rw [step_line_states]
  rcases title_step_states st line with heq | ⟨k, heq⟩
  · rw [heq]; exact h
  · rw [heq]; exact dictInsert_nodup h

lemma foldl_nodup (lines : List Str) :
    ∀ st : ScanState, (st.states.map Prod.fst).Nodup →
      ((lines.foldl step_line st).states.map Prod.fst).Nodup := by
  induction lines with
  | nil => intro st h; exact h
  | cons l ls ih => intro st h; exact ih _ (step_line_nodup l h)

lemma parse_nodup (lines : List Str) :
    ((parse_dwuck_output lines).map Prod.fst).Nodup := by
  rw [parse_dwuck_output, finalizeScan]
  rcases flushSeries_states_cases (lines.foldl step_line init_scan) with heq | ⟨k, heq⟩
  · rw [heq]; exact foldl_nodup lines init_scan (by simp [init_scan])
  · rw [heq]; exact dictInsert_nodup (foldl_nodup lines init_scan (by simp [init_scan]))

/-! ### Flushing the pending series at end-of-input -/

lemma finalize_flush (st : ScanState) (k : ℚ) (h1 : st.current_ex = some k)
    (h2 : st.angles ≠ []) :
    finalizeScan st = dictInsert k (st.angles, st.xsecs) st.states := by
  have he : st.angles.isEmpty = false := by
    cases ha : st.angles with
    | nil => exact absurd ha h2
    | cons a t => rfl
  rw [finalizeScan, flushSeries, h1]
  simp only [he]
  rfl

/-! ### The batch encoder stops at the first failing state -/

lemma generate_go_spec (bad : StateRow) (e : String) (rest : List StateRow)
    (hbE : bad.Ex_keV.isSome = true) (hbO : bad.orbital.isSome = true)
    (hbf : format_state_block bad = Except.error e) :
    ∀ pre : List StateRow, ∀ acc : List Str,
      (∀ p ∈ pre, p.Ex_keV.isSome = true ∧ p.orbital.isSome = true ∧
        okB (format_state_block p) = true) →
      generate_go (pre ++ bad :: rest) acc =
        (acc ++ (pre.map ok_block).flatten, Except.error e) := by
  intro pre
  induction pre with
  | nil =>
    intro acc _
    obtain ⟨x, hx⟩ := Option.isSome_iff_exists.mp hbE
    obtain ⟨y, hy⟩ := Option.isSome_iff_exists.mp hbO
    rw [List.nil_append]
    simp only [generate_go, hx, hy, hbf]
    simp
  | cons p pre ih =>
    intro acc hall
    have hp := hall p (by simp)
    obtain ⟨x, hx⟩ := Option.isSome_iff_exists.mp hp.1
    obtain ⟨y, hy⟩ := Option.isSome_iff_exists.mp hp.2.1
    have hok : ∃ b, format_state_block p = Except.ok b := by
      rcases hfb : format_state_block p with b | b
      · have h3 := hp.2.2
        rw [hfb] at h3
        simp [okB] at h3
      · exact ⟨b, rfl⟩
    obtain ⟨b, hb⟩ := hok
    rw [List.cons_append]
    simp only [generate_go, hx, hy, hb]
    rw [ih (acc ++ b) (fun q hq => hall q (by simp [hq]))]
    simp [ok_block, ok_block_aux, hb, List.append_assoc]

/-! ## Claim theorems -/

/-- C1 (amended): for every value, `fmt_f8` returns exactly 8 characters with
an explicit leading sign; the parse-back guarantee holds for `|v| ≤ 999.999`
(values whose signed 3-decimal rendering fits the 8-character field), where
the rendered field parses back as a float within `10^-3` of `v`.  For larger
magnitudes below `10^6` the output is still 8 characters but precision
reduction and truncation can lose more than `10^-3` (see the
counterexample). -/
theorem c1_theorem :
    (∀ v : ℚ, (fmt_f8 v).length = 8 ∧ (fmt_f8 v).head? = some (signChar v)) ∧
    (∀ v : ℚ, |v| ≤ 999999/1000 →
      ∃ w : ℚ, pyFloat (fmt_f8 v) = some w ∧ |w - v| ≤ 1/1000) :=
  ⟨fun v => ⟨fmt_f8_length v, fmt_f8_head v⟩, roundtrip_close⟩

/-- C1 witness: at `v = 42.125` the hypothesis holds and the parse-back
round trip is within tolerance. -/
theorem c1_witness :
    |(42125/1000 : ℚ)| ≤ 999999/1000 ∧
    ∃ w : ℚ, pyFloat (fmt_f8 (42125/1000)) = some w ∧ |w - 42125/1000| ≤ 1/1000 :=
  ⟨by rw [abs_le]; constructor <;> norm_num,
   c1_theorem.2 (42125/1000) (by rw [abs_le]; constructor <;> norm_num)⟩

/-- C1 counterexample: `v = 1234.567` satisfies `|v| < 10^(8-2)` but the
8-character rendering `"+1234.57"` parses back to `1234.57`, which is
`3·10^-3` away from `v` — more than the claimed `10^-3` tolerance. -/
theorem c1_counterexample :
    |(1234567/1000 : ℚ)| < 10 ^ 6 ∧
    fmt_f8 (1234567/1000) = "+1234.57".toList ∧
    pyFloat (fmt_f8 (1234567/1000)) = some (mkRat 123457 100) ∧
    ¬ |mkRat 123457 100 - 1234567/1000| ≤ 1/1000 := by
  refine ⟨by rw [abs_lt]; constructor <;> norm_num,
    by with_unfolding_all rfl, by with_unfolding_all rfl, ?_⟩
  rw [mkRat_eq_div', abs_le]
  push_cast
  norm_num

/-- C2: the encoder classifies a state as bound exactly when its binding
energy is strictly negative, selecting control code and marker accordingly;
binding energy exactly 0.0 is unbound.  Both `generate_input.py`
(`format_state_block`) and `generate_scan_7MeV.py` (`format_state`) use this
rule, and the concrete zero-binding-energy state block carries the unbound
control code and the unbound title marker. -/
theorem c2_theorem :
    (∀ e : ℚ, is_bound e = true ↔ e < 0) ∧
    is_bound 0 = false ∧
    (∀ e : ℚ, control_code e = if e < 0 then control_code_bound else control_code_unbound) ∧
    (∀ e : ℚ, bound_marker e = if e < 0 then ("bound ZR".toList) else ("unbound ZR".toList)) ∧
    (∀ ex : ℚ, scan_is_bound ex = true ↔ BE_gs + ex < 0) ∧
    okB (format_state_block rowZero) = true ∧
    (block_line rowZero 0).take 16 = control_code_unbound ∧
    containsSub (block_line rowZero 0) "unbound ZR".toList = true := by
  refine ⟨?_, ?_, ?_, ?_, ?_, ?_, ?_, ?_⟩
  · intro e
    simp [is_bound]
  · with_unfolding_all rfl
  · intro e
    by_cases h : e < 0 <;> simp [control_code, is_bound, h]
  · intro e
    by_cases h : e < 0 <;> simp [bound_marker, is_bound, h]
  · intro ex
    simp [scan_is_bound]
  · with_unfolding_all rfl
  · with_unfolding_all rfl
  · with_unfolding_all rfl

/-- C3: the radial-integration bound is the fixed value 50.0 for bound
states and the fixed value -15.0 for unbound states, in both encoders; it is
positive exactly when the state is bound (the sign is never flipped), and
the Scenario-B state (binding energy +0.5) renders the integration card with
the negative field `-015.` and a title containing the unbound marker. -/
theorem c3_theorem :
    (∀ e : ℚ, rmax_of e = if e < 0 then 50.0 else -15.0) ∧
    (∀ e : ℚ, 0 < rmax_of e ↔ e < 0) ∧
    (∀ ex : ℚ, scan_rmax ex = if BE_gs + ex < 0 then 50.0 else -15.0) ∧
    okB (format_state_block rowB) = true ∧
    block_line rowB 3 = ljust 80 ("+00.10  +00.    -015.".toList) ∧
    containsSub (block_line rowB 0) "unbound ZR".toList = true := by
  refine ⟨?_, ?_, ?_, ?_, ?_, ?_⟩
  · intro e
    by_cases h : e < 0 <;> simp [rmax_of, is_bound, h]
  · intro e
    by_cases h : e < 0 <;> simp [rmax_of, is_bound, h] <;> norm_num
  · intro ex
    by_cases h : BE_gs + ex < 0 <;> simp [scan_rmax, scan_is_bound, h]
  · with_unfolding_all rfl
  · with_unfolding_all rfl
  · with_unfolding_all rfl

/-- C4: each of the four proton optical-model depths is linear in the exit
proton energy about the fixed reference energy 9.438 MeV with the fixed
per-channel reference depths and slopes, so at `E = 9.438` every depth —
including the imaginary surface depth — equals its reference value
exactly. -/
theorem c4_theorem :
    (∀ E : ℚ,
      (calculate_proton_optical_model E).V_real = -56.249 + 0.405 * (E - 9.438) ∧
      (calculate_proton_optical_model E).W_surf = 34.836 + (-0.415) * (E - 9.438) ∧
      (calculate_proton_optical_model E).VSO_real = -0.786 + 0.081 * (E - 9.438) ∧
      (calculate_proton_optical_model E).WSO_imag = 0.156 + (-0.019) * (E - 9.438)) ∧
    (calculate_proton_optical_model 9.438).V_real = -56.249 ∧
    (calculate_proton_optical_model 9.438).W_surf = 34.836 ∧
    (calculate_proton_optical_model 9.438).VSO_real = -0.786 ∧
    (calculate_proton_optical_model 9.438).WSO_imag = 0.156 := by
  have hform : ∀ E : ℚ,
      (calculate_proton_optical_model E).V_real = -56.249 + 0.405 * (E - 9.438) ∧
      (calculate_proton_optical_model E).W_surf = 34.836 + (-0.415) * (E - 9.438) ∧
      (calculate_proton_optical_model E).VSO_real = -0.786 + 0.081 * (E - 9.438) ∧
      (calculate_proton_optical_model E).WSO_imag = 0.156 + (-0.019) * (E - 9.438) :=
    fun E => ⟨rfl, rfl, rfl, rfl⟩
  refine ⟨hform, ?_, ?_, ?_, ?_⟩
  · rw [(hform 9.438).1]; norm_num
  · rw [(hform 9.438).2.1]; norm_num
  · rw [(hform 9.438).2.2.1]; norm_num
  · rw [(hform 9.438).2.2.2]; norm_num

/-- C5 (amended): in `generate_input.py` the binding-energy field is
formatted by exactly the same function as the Q-value field, and that
convention is sign-dependent — a non-negative value uses the width-6
zero-padded format with a separate `+` (one fewer digit of padding), a
negative value the width-7 signed format — with a 7-character field either
way for `|v| ≤ 99.999`.  In `generate_scan_7MeV.py`, however, both the
Q-value card and the binding-energy card render their leading field with
the same `fmt_f8`, whose layout is sign-independent: the characters after
the sign coincide for `v` and `-v`. -/
theorem c5_theorem :
    (∀ v : ℚ, E_bind_formatted v = Q_formatted v) ∧
    (∀ v : ℚ, 0 ≤ v → Q_formatted v = '+' :: zfill (7 - 1) (fixChars (scaledN v 3) 3)) ∧
    (∀ v : ℚ, v < 0 → Q_formatted v = '-' :: zfill (7 - 1) (fixChars (scaledN v 3) 3)) ∧
    (∀ v : ℚ, |v| ≤ 99999/1000 → (Q_formatted v).length = 7) ∧
    (∀ v : ℚ, (scan_q_card v).take 8 = fmt_f8 v ∧ (scan_be_card v).take 8 = fmt_f8 v) ∧
    (∀ v : ℚ, (fmt_f8 (-v)).tail = (fmt_f8 v).tail) := by
  refine ⟨fun v => rfl, ?_, ?_, fun v h => Q_formatted_length v h, ?_,
    fun v => fmt_f8_tail_neg v⟩
  · intro v h
    rw [Q_formatted, if_pos h, pyFix, if_neg (not_lt.mpr h)]
  · intro v h
    rw [Q_formatted, if_neg (not_le.mpr h), pyPlusFix, signChar, if_pos h]
  · intro v
    constructor
    · rw [scan_q_card]
      exact take_eight_fmt v _
    · rw [scan_be_card, List.append_assoc]
      exact take_eight_fmt v _

/-- C5 witness: concrete renderings on both sides of zero have the common
sign-plus-six-column shape and length 7. -/
theorem c5_witness :
    (0:ℚ) ≤ 2.079 ∧
    Q_formatted 2.079 = '+' :: zfill (7 - 1) (fixChars (scaledN 2.079 3) 3) ∧
    (-0.123 : ℚ) < 0 ∧
    Q_formatted (-0.123) = '-' :: zfill (7 - 1) (fixChars (scaledN (-0.123) 3) 3) ∧
    |(-0.123 : ℚ)| ≤ 99999/1000 ∧ (Q_formatted (-0.123)).length = 7 :=
  ⟨by norm_num, c5_theorem.2.1 2.079 (by norm_num),
   by norm_num, c5_theorem.2.2.1 (-0.123) (by norm_num),
   by rw [abs_le]; constructor <;> norm_num,
   c5_theorem.2.2.2.1 (-0.123) (by rw [abs_le]; constructor <;> norm_num)⟩

/-- C5 counterexample: the sign-dependent width convention fails for the
cited scan encoder.  `generate_scan_7MeV.py` renders both the Q-value card
and the binding-energy card with `fmt_f8`, which lays the magnitude out
identically for either sign: at `±2.079` the characters after the sign
coincide (`"2.079  "`), with no extra digit of padding on the negative
side, and the scan card's leading field differs from the zero-padded
sign-dependent field that `generate_input.py` produces at the same
value. -/
theorem c5_counterexample :
    fmt_f8 (2.079 : ℚ) = "+2.079  ".toList ∧
    fmt_f8 (-2.079 : ℚ) = "-2.079  ".toList ∧
    (fmt_f8 (2.079 : ℚ)).tail = (fmt_f8 (-2.079 : ℚ)).tail ∧
    Q_formatted (2.079 : ℚ) = "+02.079".toList ∧
    (scan_q_card (2.079 : ℚ)).take 7 ≠ Q_formatted (2.079 : ℚ) ∧
    scan_q_card (2.079 : ℚ) =
      ("+2.079    1.0     1.0    37.0    16.0    001.292                 +01.            ").toList ∧
    scan_be_card (-4.304 : ℚ) =
      ("-4.304    1.0     0.0    36.0    16.0    +01.30                  +01.    ").toList :=
  ⟨by with_unfolding_all rfl, by with_unfolding_all rfl, by with_unfolding_all rfl,
   by with_unfolding_all rfl, by with_unfolding_all decide,
   by with_unfolding_all rfl, by with_unfolding_all rfl⟩

/-- C6 (amended): when the signed 3-decimal rendering exceeds 8 characters,
`fmt_f8` re-renders with 2 decimals and truncates the result to 8
characters; the result is always a plain 8-character string — no warning is
reported and no `FieldOverflowError` is ever raised, even when the
zero-decimal rendering cannot fit (integer-part digits are then silently
dropped). -/
theorem c6_theorem : ∀ v : ℚ, 8 < (sfix 3 v).length →
    fmt_f8 v = (ljust 8 (sfix 2 v)).take 8 ∧ (fmt_f8 v).length = 8 := by
  intro v h
  constructor
  · rw [fmt_f8, if_neg (by omega), if_pos (by omega)]
  · exact fmt_f8_length v

/-- C6 witness: at `v = -12345678` the 3-decimal rendering is too long and
`fmt_f8` silently truncates. -/
theorem c6_witness :
    8 < (sfix 3 (-12345678 : ℚ)).length ∧
    (fmt_f8 (-12345678 : ℚ) = (ljust 8 (sfix 2 (-12345678 : ℚ))).take 8 ∧
      (fmt_f8 (-12345678 : ℚ)).length = 8) :=
  ⟨by with_unfolding_all decide, c6_theorem (-12345678) (by with_unfolding_all decide)⟩

/-- C6 counterexample: at `v = -12345678` even the zero-decimal rendering
needs 9 characters, so the spec's `render` mandates `FieldOverflowError`;
the code instead silently returns the truncated string `"-1234567"`,
dropping the final integer digit with no warning. -/
theorem c6_counterexample :
    render_spec (-12345678 : ℚ) 8 3 = SpecRender.fieldOverflowError ∧
    8 < (sfix 0 (-12345678 : ℚ)).length ∧
    fmt_f8 (-12345678 : ℚ) = "-1234567".toList := by
  refine ⟨by with_unfolding_all rfl, by with_unfolding_all decide, by with_unfolding_all rfl⟩

/-- C7: decoding the two-series report of Scenario C yields exactly two
series with the three data rows of each in input order; appending an
explicit table terminator changes nothing, because a series left open at
end-of-input is flushed by the decoder's final step, which stores the
pending rows under the current key. -/
theorem c7_theorem :
    parse_dwuck_output scenC =
      [ (0, ([10, 20, 30], [mkRat 1234 10000, mkRat 2 10, mkRat 3 10])),
        (1, ([10, 20, 30], [mkRat 4 10, mkRat 5 10, mkRat 6 10])) ] ∧
    parse_dwuck_output (scenC ++ [" 0Tot-sig  1.234E-01".toList]) =
      [ (0, ([10, 20, 30], [mkRat 1234 10000, mkRat 2 10, mkRat 3 10])),
        (1, ([10, 20, 30], [mkRat 4 10, mkRat 5 10, mkRat 6 10])) ] ∧
    (∀ st : ScanState, ∀ k : ℚ, st.current_ex = some k → st.angles ≠ [] →
      finalizeScan st = dictInsert k (st.angles, st.xsecs) st.states) :=
  ⟨by with_unfolding_all rfl, by with_unfolding_all rfl,
   fun st k h1 h2 => finalize_flush st k h1 h2⟩

/-- C7 witness: the end-of-input flush applied to a concrete mid-series
state. -/
theorem c7_witness :
    (ScanState.mk [] (some 1) [10] [5] false).current_ex = some 1 ∧
    (ScanState.mk [] (some 1) [10] [5] false).angles ≠ [] ∧
    finalizeScan (ScanState.mk [] (some 1) [10] [5] false) =
      dictInsert 1 ([10], [5]) [] :=
  ⟨rfl, by simp, c7_theorem.2.2 (ScanState.mk [] (some 1) [10] [5] false) 1 rfl (by simp)⟩

/-- C8 (amended): in the dict-based decoders (`plot_scan_overlay.py`, and
`plot_single_run.py` with its label key) the collection's keys never
repeat, and a later series under the same key replaces the earlier rows
(last write wins), as the duplicate-label report shows.  In
`plot_dwuck.py`, however, `parse_output` appends every series to a plain
list: a later series with the same title is retained alongside the earlier
one, as the duplicate-title report shows. -/
theorem c8_theorem :
    (∀ lines : List Str, ((parse_dwuck_output lines).map Prod.fst).Nodup) ∧
    parse_dwuck_output dupInput = [(0, ([30, 40], [mkRat 3 10, mkRat 4 10]))] ∧
    parse_output dupTitledReport =
      [ ("36S(d,p) 0 keV run".toList, ([10, 20], [mkRat 1 10, mkRat 2 10])),
        ("36S(d,p) 0 keV run".toList, ([30, 40], [mkRat 3 10, mkRat 4 10])) ] :=
  ⟨parse_nodup, by with_unfolding_all rfl, by with_unfolding_all rfl⟩

/-- C8 counterexample: for the cited list-building `parse_output` of
`plot_dwuck.py` the no-duplicate-keys / last-write-wins property fails:
the duplicate-title report decodes to two series retained under the same
title. -/
theorem c8_counterexample :
    (parse_output dupTitledReport).map Prod.fst =
      ["36S(d,p) 0 keV run".toList, "36S(d,p) 0 keV run".toList] ∧
    ¬ ((parse_output dupTitledReport).map Prod.fst).Nodup := by
  have h : (parse_output dupTitledReport).map Prod.fst =
      ["36S(d,p) 0 keV run".toList, "36S(d,p) 0 keV run".toList] := by
    with_unfolding_all rfl
  exact ⟨h, by rw [h]; decide⟩

/-- C9 (amended): an empty batch is rejected up front and nothing is
written; but a state with a missing or non-numeric required field does not
merely skip that state — the error aborts the whole run at that state:
blocks written for earlier states remain, no later state is encoded, and
the terminator line is never written. -/
theorem c9_theorem :
    generate_input_file [] = ([], Except.error ("Error: No states found in CSV file")) ∧
    (∀ pre : List StateRow, ∀ bad : StateRow, ∀ rest : List StateRow, ∀ e : String,
      (∀ p ∈ pre, p.Ex_keV.isSome = true ∧ p.orbital.isSome = true ∧
        okB (format_state_block p) = true) →
      bad.Ex_keV.isSome = true → bad.orbital.isSome = true →
      format_state_block bad = Except.error e →
      generate_input_file (pre ++ bad :: rest) =
        ((pre.map ok_block).flatten, Except.error e)) := by
  constructor
  · rfl
  · intro pre bad rest e hall hbE hbO hbf
    rw [generate_input_file, if_neg (by simp)]
    rw [generate_go_spec bad e rest hbE hbO hbf pre [] hall]
    simp

/-- C9 witness: a good state followed by a state with a non-numeric binding
energy: only the good state's block is written, then the run aborts. -/
theorem c9_witness :
    generate_input_file ([rowA] ++ rowBad :: []) =
      (([rowA].map ok_block).flatten,
        Except.error ("ValueError: could not convert string to float")) :=
  c9_theorem.2 [rowA] rowBad [] "ValueError: could not convert string to float"
    (by
      intro p hp
      rw [List.mem_singleton] at hp
      subst hp
      exact ⟨rfl, rfl, by with_unfolding_all rfl⟩)
    rfl rfl (by with_unfolding_all rfl)

/-- C9 counterexample: with the invalid state first, the perfectly valid
second state is never encoded — the run returns an error with nothing
written, contradicting the claimed skip-and-continue policy. -/
theorem c9_counterexample :
    okB (format_state_block rowA) = true ∧
    generate_input_file [rowBad, rowA] =
      ([], Except.error ("ValueError: could not convert string to float")) :=
  ⟨by with_unfolding_all rfl, by with_unfolding_all rfl⟩

/-- C10: a line matching the title marker whose embedded keV numeral does
not parse as an integer leaves the current key unchanged: the rows that
follow it are accumulated and stored under the preceding state's excitation
energy, overwriting that earlier series in the collection. -/
theorem c10_theorem :
    isTitleLine c10BadTitle = true ∧
    title_ex_key c10BadTitle = none ∧
    parse_dwuck_output (c10Input.take 4) = [(1, ([10, 20], [mkRat 1 10, mkRat 2 10]))] ∧
    parse_dwuck_output c10Input = [(1, ([30, 40], [mkRat 3 10, mkRat 4 10]))] := by
  refine ⟨?_, ?_, ?_, ?_⟩ <;> with_unfolding_all rfl

end DWUCK
